import Mathlib

/-!
Shallow embedding of `src/task/03-date-tasks.js` and verification of its
specification.

The module under verification exposes five stateless functions over JavaScript
`Date` values: two string parsers (`parseDataFromRfc2822`,
`parseDataFromIso8601`), a leap-year predicate (`isLeapYear`), a timespan
formatter (`timeSpanToString`) and a clock-hand-angle calculator
(`angleBetweenClockHands`).

A JavaScript `Date` is modelled as a record of the accessor results the five
functions actually read: `getFullYear`, `getTime` (milliseconds since the
epoch), the UTC hour/minute components, and the remaining calendar components
(used only to state independence properties). JavaScript numbers are modelled
as exact integers (all quantities involved are integers within the exact
range of IEEE doubles) and, for the clock-angle function, as exact reals.
-/

/-- A JavaScript `Date` value, modelled by the results of its accessors. -/
structure JSDate where
  getFullYear : ℤ
  getMonth : ℕ
  getDate : ℕ
  getHours : ℕ
  getMinutes : ℕ
  getSeconds : ℕ
  getMilliseconds : ℕ
  getUTCHours : ℕ
  getUTCMinutes : ℕ
  getTime : ℤ
deriving DecidableEq

/-- Embedding of `isLeapYear(date)`.  JavaScript `%` on integers is the
truncated remainder, hence `Int.tmod`. -/
def isLeapYear (date : JSDate) : Bool :=
  let year := date.getFullYear
  (year.tmod 4 == 0) && ((year.tmod 100 != 0) || (year.tmod 400 == 0))

/-- For zero-tests the truncated remainder agrees with the euclidean one. -/
lemma tmod_eq_zero_iff_emod_eq_zero (a b : ℤ) : a.tmod b = 0 ↔ a % b = 0 := by
  constructor <;> intro h
  · exact Int.emod_eq_zero_of_dvd (Int.dvd_of_tmod_eq_zero h)
  · exact Int.tmod_eq_zero_of_dvd (Int.dvd_of_emod_eq_zero h)

/-- A date with the given year and fixed (arbitrary) other components. -/
def dateOfYear (y : ℤ) : JSDate :=
  ⟨y, 1, 1, 0, 0, 0, 0, 0, 0, 0⟩

/-- C4: for every date with year component `Y`, `isLeapYear` returns `true`
iff `Y mod 4 == 0` and (`Y mod 100 != 0` or `Y mod 400 == 0`); in particular
it returns `true` for the years 2000 and 2012 and `false` for 1900, 2001
and 2015. -/
theorem isLeapYear_iff_gregorian_rule :
    (∀ d : JSDate, isLeapYear d = true ↔
      (d.getFullYear % 4 = 0 ∧ (d.getFullYear % 100 ≠ 0 ∨ d.getFullYear % 400 = 0)))
    ∧ isLeapYear (dateOfYear 2000) = true
    ∧ isLeapYear (dateOfYear 2012) = true
    ∧ isLeapYear (dateOfYear 1900) = false
    ∧ isLeapYear (dateOfYear 2001) = false
    ∧ isLeapYear (dateOfYear 2015) = false := by
  refine ⟨fun d => ?_, by decide, by decide, by decide, by decide, by decide⟩
  simp only [isLeapYear, Bool.and_eq_true, Bool.or_eq_true, beq_iff_eq, bne_iff_ne, ne_eq,
    tmod_eq_zero_iff_emod_eq_zero]

/-- C9: `isLeapYear` depends only on the year component of its input: any two
dates with equal `getFullYear` yield the same result, whatever their month,
day or time-of-day components. -/
theorem isLeapYear_depends_only_on_year (d1 d2 : JSDate)
    (h : d1.getFullYear = d2.getFullYear) :
    isLeapYear d1 = isLeapYear d2 := by
  simp only [isLeapYear, h]

/-- Witness for C9: two dates sharing the year 2016 but differing in every
other component. -/
theorem isLeapYear_depends_only_on_year_witness :
    isLeapYear ⟨2016, 2, 5, 1, 2, 3, 4, 5, 6, 100⟩
      = isLeapYear ⟨2016, 11, 30, 23, 59, 58, 999, 7, 8, 200⟩ :=
  isLeapYear_depends_only_on_year ⟨2016, 2, 5, 1, 2, 3, 4, 5, 6, 100⟩
    ⟨2016, 11, 30, 23, 59, 58, 999, 7, 8, 200⟩ rfl

/-- JavaScript truthiness of a string: every non-empty string is truthy. -/
def jsTruthy (s : String) : Bool := s != ""

/-- JavaScript coercion of a boolean to a string. -/
def jsStringOfBool (b : Bool) : String := if b then "true" else "false"

/-- Embedding of `timeSpanToString(startDate, endDate)`.

The line `var result = "" + (hours<10) ? "0"+hours : hours;` is parsed by
JavaScript as `("" + (hours<10)) ? ("0"+hours) : hours` because `+` binds
tighter than `?:`; the condition is the string `"true"` or `"false"`, both
non-empty and hence truthy, so the branch `"0"+hours` is always taken.  The
embedding reproduces exactly that behaviour. -/
def timeSpanToString (startDate endDate : JSDate) : String :=
  let diff := (startDate.getTime - endDate.getTime).natAbs
  let hourInMS := 60 * 60 * 1000
  let minuteInMS := 60 * 1000
  let secondInMS := 1000
  let hours := diff / hourInMS
  let diff := diff - hours * hourInMS
  let minutes := diff / minuteInMS
  let diff := diff - minutes * minuteInMS
  let seconds := diff / secondInMS
  let mSeconds := diff - seconds * secondInMS
  let result := if jsTruthy ("" ++ jsStringOfBool (decide (hours < 10)))
    then ("0" ++ toString hours) else toString hours
  let result := result ++ ":"
  let result := result ++ (if minutes < 10 then ("0" ++ toString minutes) else toString minutes)
  let result := result ++ ":"
  let result := result ++ (if seconds < 10 then ("0" ++ toString seconds) else toString seconds)
  let result := result ++ "."
  let result := if mSeconds < 100 then result ++ "0" else result
  let result := if mSeconds < 10 then result ++ "0" else result
  result ++ toString mSeconds

/-- A date whose only relevant component is its timestamp `t` (ms since the
epoch); the calendar components are fixed arbitrarily. -/
def dateAtTime (t : ℤ) : JSDate :=
  ⟨2000, 1, 1, 0, 0, 0, 0, 0, 0, t⟩

/-- C2 (failing-input evaluation): on a span of exactly 30 hours the code
renders the hours field as "030", not "30" — the output does not start with
"30:".  The always-truthy condition described at `timeSpanToString` prepends
"0" to every hour count, including those of two or more digits. -/
theorem timeSpanToString_thirty_hours_not_two_digits :
    timeSpanToString (dateAtTime 0) (dateAtTime 108000000) = "030:00:00.000"
    ∧ timeSpanToString (dateAtTime 0) (dateAtTime 108000000) ≠ "30:00:00.000" := by
  constructor <;> decide

/-- C5: `timeSpanToString` is symmetric in its two arguments. -/
theorem timeSpanToString_symm (startDate endDate : JSDate) :
    timeSpanToString startDate endDate = timeSpanToString endDate startDate := by
  have habs : (startDate.getTime - endDate.getTime).natAbs
      = (endDate.getTime - startDate.getTime).natAbs := by
    rw [← Int.natAbs_neg, neg_sub]
  simp only [timeSpanToString, habs]

/-- Embedding of `angleBetweenClockHands(date)`.  Note the two quirks of the
source, reproduced exactly: the hour is reduced by 12 only when strictly
greater than 12 (so hour 12 stays 12), and a raw angle above π is reduced by
subtracting π (not by taking 2π minus the raw angle). -/
noncomputable def angleBetweenClockHands (date : JSDate) : ℝ :=
  let radInHour : ℝ := 2 * Real.pi / 12
  let radInMinute : ℝ := 2 * Real.pi / 60
  let hours0 := date.getUTCHours
  let minutes := date.getUTCMinutes
  let hours := if hours0 > 12 then hours0 - 12 else hours0
  let hoursAngle : ℝ := hours * radInHour + radInHour * minutes / 60
  let minutesAngle : ℝ := minutes * radInMinute
  let result := |hoursAngle - minutesAngle|
  if result > Real.pi then result - Real.pi else result

/-- The spec's clock-hand-angle algorithm, stated from its words: hour-hand
angle `(hour mod 12) * (2π/12) + minute * (2π/12)/60`, minute-hand angle
`minute * (2π/60)`, raw angle the absolute difference, and `2π - raw` when
the raw angle exceeds π. -/
noncomputable def specClockHandAngle (hour minute : ℕ) : ℝ :=
  let hourAngle : ℝ := (hour % 12) * (2 * Real.pi / 12) + minute * ((2 * Real.pi / 12) / 60)
  let minuteAngle : ℝ := minute * (2 * Real.pi / 60)
  let raw := |hourAngle - minuteAngle|
  if raw > Real.pi then 2 * Real.pi - raw else raw

/-- The hour adjustment performed by the source (`if(hours>12)hours-=12`). -/
def clockHoursAdjusted (h : ℕ) : ℕ := if h > 12 then h - 12 else h

/-- The source's raw angle, measured in units of π/360 radians: every angle
in the computation is an integer multiple of that unit. -/
def clockRawUnits (h m : ℕ) : ℕ := ((60 * (clockHoursAdjusted h : ℤ)) - 11 * m).natAbs

/-- The source's final result in units of π/360 radians. -/
def clockAngleUnits (h m : ℕ) : ℕ :=
  if clockRawUnits h m > 360 then clockRawUnits h m - 360 else clockRawUnits h m

lemma clockRaw_cast (h m : ℕ) :
    |(clockHoursAdjusted h : ℝ) * (2 * Real.pi / 12) + 2 * Real.pi / 12 * m / 60
        - m * (2 * Real.pi / 60)|
      = (clockRawUnits h m : ℝ) * (Real.pi / 360) := by
  have hdiff : (clockHoursAdjusted h : ℝ) * (2 * Real.pi / 12) + 2 * Real.pi / 12 * m / 60
      - m * (2 * Real.pi / 60)
      = ((60 * (clockHoursAdjusted h : ℤ) - 11 * m : ℤ) : ℝ) * (Real.pi / 360) := by
    push_cast
    ring
  rw [hdiff, abs_mul, abs_of_nonneg (by positivity : (0:ℝ) ≤ Real.pi / 360)]
  congr 1
  rw [clockRawUnits, Int.cast_natAbs, Int.cast_abs]

lemma angleBetweenClockHands_eq_units (d : JSDate) :
    angleBetweenClockHands d
      = (clockAngleUnits d.getUTCHours d.getUTCMinutes : ℝ) * (Real.pi / 360) := by
  have hpos : (0:ℝ) < Real.pi / 360 := by positivity
  simp only [angleBetweenClockHands]
  rw [show (if d.getUTCHours > 12 then d.getUTCHours - 12 else d.getUTCHours)
      = clockHoursAdjusted d.getUTCHours from rfl]
  rw [clockRaw_cast]
  have hcond : ((clockRawUnits d.getUTCHours d.getUTCMinutes : ℝ) * (Real.pi / 360) > Real.pi)
      ↔ clockRawUnits d.getUTCHours d.getUTCMinutes > 360 := by
    have h1 : ((clockRawUnits d.getUTCHours d.getUTCMinutes : ℝ) > 360)
        ↔ clockRawUnits d.getUTCHours d.getUTCMinutes > 360 := by
      exact_mod_cast Iff.rfl
    rw [← h1]
    constructor <;> intro hx <;> nlinarith [Real.pi_pos]
  by_cases hgt : clockRawUnits d.getUTCHours d.getUTCMinutes > 360
  · rw [if_pos (hcond.mpr hgt), clockAngleUnits, if_pos hgt]
    push_cast [Nat.cast_sub hgt.le]
    ring
  · rw [if_neg (fun hc => hgt (hcond.mp hc)), clockAngleUnits, if_neg hgt]

lemma clockAngleUnits_le_360 (h m : ℕ) (hh : h < 24) (hm : m < 60) :
    clockAngleUnits h m ≤ 360 := by
  simp only [clockAngleUnits, clockRawUnits, clockHoursAdjusted]
  split_ifs <;> omega

/-- A date at the given UTC hour and minute; the other components are fixed
arbitrarily. -/
def dateAtUTC (h m : ℕ) : JSDate :=
  ⟨2016, 2, 5, 0, 0, 0, 0, h, m, 0⟩

/-- C3: for every valid date (UTC hour below 24, UTC minute below 60) the
value of `angleBetweenClockHands` lies in the closed interval [0, π]. -/
theorem angleBetweenClockHands_mem_Icc (d : JSDate)
    (hh : d.getUTCHours < 24) (hm : d.getUTCMinutes < 60) :
    0 ≤ angleBetweenClockHands d ∧ angleBetweenClockHands d ≤ Real.pi := by
  rw [angleBetweenClockHands_eq_units]
  constructor
  · positivity
  · have hle : (clockAngleUnits d.getUTCHours d.getUTCMinutes : ℝ) ≤ 360 := by
      exact_mod_cast clockAngleUnits_le_360 d.getUTCHours d.getUTCMinutes hh hm
    have h360 : (360:ℝ) * (Real.pi / 360) = Real.pi := by ring
    calc (clockAngleUnits d.getUTCHours d.getUTCMinutes : ℝ) * (Real.pi / 360)
        ≤ 360 * (Real.pi / 360) :=
          mul_le_mul_of_nonneg_right hle (by positivity)
      _ = Real.pi := h360

/-- Witness for C3 at the concrete date 09:30 UTC. -/
theorem angleBetweenClockHands_mem_Icc_witness :
    0 ≤ angleBetweenClockHands (dateAtUTC 9 30)
    ∧ angleBetweenClockHands (dateAtUTC 9 30) ≤ Real.pi :=
  angleBetweenClockHands_mem_Icc (dateAtUTC 9 30) (by decide) (by decide)

/-- C8: `angleBetweenClockHands` returns 0 for any date at UTC 00:00, π/2 at
UTC 03:00, π at UTC 18:00 and π/2 at UTC 21:00. -/
theorem angleBetweenClockHands_examples (d : JSDate) :
    (d.getUTCHours = 0 ∧ d.getUTCMinutes = 0 → angleBetweenClockHands d = 0)
    ∧ (d.getUTCHours = 3 ∧ d.getUTCMinutes = 0 → angleBetweenClockHands d = Real.pi / 2)
    ∧ (d.getUTCHours = 18 ∧ d.getUTCMinutes = 0 → angleBetweenClockHands d = Real.pi)
    ∧ (d.getUTCHours = 21 ∧ d.getUTCMinutes = 0 → angleBetweenClockHands d = Real.pi / 2) := by
  refine ⟨fun ⟨h1, h2⟩ => ?_, fun ⟨h1, h2⟩ => ?_, fun ⟨h1, h2⟩ => ?_, fun ⟨h1, h2⟩ => ?_⟩ <;>
    rw [angleBetweenClockHands_eq_units, h1, h2]
  · rw [show clockAngleUnits 0 0 = 0 from rfl]
    push_cast
    ring
  · rw [show clockAngleUnits 3 0 = 180 from rfl]
    push_cast
    ring
  · rw [show clockAngleUnits 18 0 = 360 from rfl]
    push_cast
    ring
  · rw [show clockAngleUnits 21 0 = 180 from rfl]
    push_cast
    ring

/-- Witness for C8 at four concrete dates. -/
theorem angleBetweenClockHands_examples_witness :
    angleBetweenClockHands (dateAtUTC 0 0) = 0
    ∧ angleBetweenClockHands (dateAtUTC 3 0) = Real.pi / 2
    ∧ angleBetweenClockHands (dateAtUTC 18 0) = Real.pi
    ∧ angleBetweenClockHands (dateAtUTC 21 0) = Real.pi / 2 :=
  ⟨(angleBetweenClockHands_examples (dateAtUTC 0 0)).1 ⟨rfl, rfl⟩,
   (angleBetweenClockHands_examples (dateAtUTC 3 0)).2.1 ⟨rfl, rfl⟩,
   (angleBetweenClockHands_examples (dateAtUTC 18 0)).2.2.1 ⟨rfl, rfl⟩,
   (angleBetweenClockHands_examples (dateAtUTC 21 0)).2.2.2 ⟨rfl, rfl⟩⟩

/-- C1 (failing-input evaluation): at UTC 12:00 the code returns π while the
spec's algorithm returns 0 (at noon both hands point at 12, so their angle
is 0).  The code leaves hour 12 unreduced (`hours>12` instead of taking the
hour mod 12), producing the raw angle 2π, and then subtracts π instead of
taking 2π minus the raw angle. -/
theorem angleBetweenClockHands_noon_deviates_from_spec :
    angleBetweenClockHands (dateAtUTC 12 0) = Real.pi
    ∧ specClockHandAngle 12 0 = 0
    ∧ angleBetweenClockHands (dateAtUTC 12 0) ≠ specClockHandAngle 12 0 := by
  have hcode : angleBetweenClockHands (dateAtUTC 12 0) = Real.pi := by
    rw [angleBetweenClockHands_eq_units]
    rw [show clockAngleUnits (dateAtUTC 12 0).getUTCHours (dateAtUTC 12 0).getUTCMinutes = 360
      from rfl]
    push_cast
    ring
  have hspec : specClockHandAngle 12 0 = 0 := by
    simp only [specClockHandAngle]
    norm_num
    exact fun hlt => absurd hlt Real.pi_pos.not_lt
  refine ⟨hcode, hspec, ?_⟩
  rw [hcode, hspec]
  exact Real.pi_ne_zero

/-- Components of an ISO 8601 extended date-time string, with the UTC offset
in minutes. -/
structure IsoComponents where
  year : ℕ
  month : ℕ
  day : ℕ
  hour : ℕ
  minute : ℕ
  second : ℕ
  msec : ℕ
  offsetMinutes : ℤ
deriving DecidableEq

/-- Reads exactly `k` decimal digits, returning their value and the rest. -/
def readDigitsAux : ℕ → ℕ → List Char → Option (ℕ × List Char)
  | 0, acc, cs => some (acc, cs)
  | k + 1, acc, c :: cs =>
      if c.isDigit then readDigitsAux k (acc * 10 + (c.toNat - 48)) cs else none
  | _ + 1, _, [] => none

/-- Reads exactly `k` decimal digits from the front of `cs`. -/
def readDigits (k : ℕ) (cs : List Char) : Option (ℕ × List Char) :=
  readDigitsAux k 0 cs

/-- Consumes the expected character from the front of the input. -/
def expectChar (c : Char) : List Char → Option (List Char)
  | d :: cs => if d = c then some cs else none
  | [] => none

/-- Parses the optional fractional-seconds part `.sss`. -/
def readMsec : List Char → Option (ℕ × List Char)
  | '.' :: cs => readDigits 3 cs
  | cs => some (0, cs)

/-- Parses the trailing UTC-offset designator: `Z`, `+hh:mm` or `-hh:mm`. -/
def readOffset : List Char → Option ℤ
  | ['Z'] => some 0
  | '+' :: cs => do
      let (oh, cs) ← readDigits 2 cs
      let cs ← expectChar ':' cs
      let (om, cs) ← readDigits 2 cs
      if cs = [] ∧ oh ≤ 23 ∧ om ≤ 59 then some ((oh : ℤ) * 60 + om) else none
  | '-' :: cs => do
      let (oh, cs) ← readDigits 2 cs
      let cs ← expectChar ':' cs
      let (om, cs) ← readDigits 2 cs
      if cs = [] ∧ oh ≤ 23 ∧ om ≤ 59 then some (-((oh : ℤ) * 60 + om)) else none
  | _ => none

/-- Modelled from the spec: the shape of strings accepted by the platform
parser for ISO 8601 extended format, `YYYY-MM-DDThh:mm:ss` with optional
`.sss` and a `Z` or `±hh:mm` offset designator (spec §4.2 and its examples).
Returns the parsed components, or `none` for a string not of that shape. -/
def parseIsoComponents (s : String) : Option IsoComponents := do
  let cs := s.data
  let (y, cs) ← readDigits 4 cs
  let cs ← expectChar '-' cs
  let (mo, cs) ← readDigits 2 cs
  let cs ← expectChar '-' cs
  let (d, cs) ← readDigits 2 cs
  let cs ← expectChar 'T' cs
  let (h, cs) ← readDigits 2 cs
  let cs ← expectChar ':' cs
  let (mi, cs) ← readDigits 2 cs
  let cs ← expectChar ':' cs
  let (se, cs) ← readDigits 2 cs
  let (ms, cs) ← readMsec cs
  let off ← readOffset cs
  if 1 ≤ y ∧ 1 ≤ mo ∧ mo ≤ 12 ∧ 1 ≤ d ∧ d ≤ 31 ∧ h ≤ 23 ∧ mi ≤ 59 ∧ se ≤ 59 then
    some ⟨y, mo, d, h, mi, se, ms, off⟩
  else none

/-- The proleptic-Gregorian leap-year rule on a plain year number. -/
def gregorianLeap (y : ℕ) : Bool :=
  y % 4 == 0 && (y % 100 != 0 || y % 400 == 0)

/-- Days in the months strictly before month `m` (1-based) of a year. -/
def daysBeforeMonth (leap : Bool) (m : ℕ) : ℕ :=
  let base :=
    match m with
    | 1 => 0
    | 2 => 31
    | 3 => 59
    | 4 => 90
    | 5 => 120
    | 6 => 151
    | 7 => 181
    | 8 => 212
    | 9 => 243
    | 10 => 273
    | 11 => 304
    | _ => 334
  base + (if leap ∧ m > 2 then 1 else 0)

/-- Days from the epoch 1970-01-01 to the given proleptic-Gregorian civil
date (`y ≥ 1`); 719162 is the day count from 0001-01-01 to the epoch. -/
def daysFromEpoch (y mo d : ℕ) : ℤ :=
  let py := y - 1
  ((365 * py + py / 4 - py / 100 + py / 400
      + daysBeforeMonth (gregorianLeap y) mo + (d - 1) : ℕ) : ℤ) - 719162

/-- The absolute instant denoted by parsed ISO components: milliseconds since
the epoch, normalized to UTC by subtracting the offset. -/
def toInstant (c : IsoComponents) : ℤ :=
  daysFromEpoch c.year c.month c.day * 86400000
    + (c.hour : ℤ) * 3600000 + (c.minute : ℤ) * 60000 + (c.second : ℤ) * 1000
    + (c.msec : ℤ) - c.offsetMinutes * 60000

/-- Modelled from the spec: the platform calendar-string parser invoked by
`new Date(value)`, which is not part of this repository.  Per spec §4.1,
§4.2 and §7 it maps a well-formed date-time string to the corresponding
Instant normalized to UTC, and an unparseable string to the explicit
invalid-date sentinel (modelled as `none`, mirroring a Date whose timestamp
is NaN) rather than throwing. -/
def jsDateParse (value : String) : Option ℤ :=
  (parseIsoComponents value).map toInstant

/-- Embedding of `parseDataFromRfc2822(value)`: `return new Date(value);`. -/
def parseDataFromRfc2822 (value : String) : Option ℤ :=
  jsDateParse value

/-- Embedding of `parseDataFromIso8601(value)`: `return new Date(value);`. -/
def parseDataFromIso8601 (value : String) : Option ℤ :=
  jsDateParse value

/-- C6: `parseDataFromIso8601` normalizes UTC offsets: the two example
strings parse to the same absolute instant, and in general any two ISO 8601
strings whose parsed components denote the same absolute time parse to equal
instants. -/
theorem parseDataFromIso8601_normalizes_offsets :
    (parseDataFromIso8601 ("2016-01-19T08:07:37Z")
        = parseDataFromIso8601 ("2016-01-19T16:07:37+08:00")
      ∧ (parseDataFromIso8601 ("2016-01-19T08:07:37Z")).isSome = true)
    ∧ ∀ (s1 s2 : String) (c1 c2 : IsoComponents),
        parseIsoComponents s1 = some c1 → parseIsoComponents s2 = some c2 →
        toInstant c1 = toInstant c2 →
        parseDataFromIso8601 s1 = parseDataFromIso8601 s2 := by
  refine ⟨⟨by decide, by decide⟩, ?_⟩
  intro s1 s2 c1 c2 h1 h2 h3
  simp only [parseDataFromIso8601, jsDateParse, h1, h2, Option.map_some', h3]

/-- Witness for C6: the general normalization statement applied to the two
example strings and their parsed components. -/
theorem parseDataFromIso8601_normalizes_offsets_witness :
    parseDataFromIso8601 ("2016-01-19T08:07:37Z")
      = parseDataFromIso8601 ("2016-01-19T16:07:37+08:00") :=
  parseDataFromIso8601_normalizes_offsets.2
    ("2016-01-19T08:07:37Z") ("2016-01-19T16:07:37+08:00")
    ⟨2016, 1, 19, 8, 7, 37, 0, 0⟩ ⟨2016, 1, 19, 16, 7, 37, 0, 480⟩
    (by decide) (by decide) (by decide)

/-- C7: neither parser throws — both are total functions into an optional
instant — and an unparseable string produces the explicit invalid-instant
sentinel `none` from both parsers alike. -/
theorem parsers_invalid_input_sentinel (s : String)
    (h : parseIsoComponents s = none) :
    parseDataFromRfc2822 s = none ∧ parseDataFromIso8601 s = none := by
  constructor <;>
    simp only [parseDataFromRfc2822, parseDataFromIso8601, jsDateParse, h, Option.map_none']

/-- Witness for C7 at the concrete malformed string "not a date". -/
theorem parsers_invalid_input_sentinel_witness :
    parseDataFromRfc2822 ("not a date") = none
    ∧ parseDataFromIso8601 ("not a date") = none :=
  parsers_invalid_input_sentinel ("not a date") (by decide)

/-- C10: the two parsers are extensionally equal: both delegate identically
to the platform date-string parser (`new Date(value)`), so they agree on
every input string. -/
theorem parseDataFromRfc2822_eq_parseDataFromIso8601 (value : String) :
    parseDataFromRfc2822 value = parseDataFromIso8601 value := rfl
